import Mathlib

/-!
Shallow embedding of the timesheet client core
(`src/static/js/timesheet/state.js` and `src/static/js/timesheet/entries.js`).

The State Store (`TimesheetState`) is embedded as a record `TSState`; every
mutation operation is a pure function returning the new state together with
the list of event names it emits, in emission order.  Event handlers are
modelled by opaque numeric identifiers kept in a registration-ordered list,
mirroring the `_listeners` table of the publish/subscribe mechanism.  DOM-only
work (caching element references, building row HTML, toggling CSS classes)
has no state content and is omitted; the entry grid that the DOM table holds
is embedded as a list of rows (`AppState.grid`), since the aggregation code
of `entries.js` reads its numbers back out of the input elements.

Numeric day values are embedded as rationals.  A day input's content is an
`Option ℚ`: `none` stands for an empty or non-numeric field, whose
`parseFloat(...) || 0` coercion is `Option.getD 0`.  On the valid domain the
spec restricts to (values clamped to `[0, 24]` and quantized to halves) every
value, row total and grand total is an exact multiple of 0.5, which IEEE
doubles represent exactly and `toFixed(1)`/`parseFloat` round-trip exactly,
so rational arithmetic is a faithful model of the JavaScript numbers there.
-/

namespace TimesheetCore

/-- The seven day-of-week columns, Sunday first, as in
`['sun', 'mon', 'tue', 'wed', 'thu', 'fri', 'sat']` (`entries.js`). -/
inductive Day where
  | sun | mon | tue | wed | thu | fri | sat
deriving DecidableEq, Repr

/-- The day list the aggregation code iterates over. -/
def daysList : List Day := [.sun, .mon, .tue, .wed, .thu, .fri, .sat]

/-- The seven per-day input contents of one grid row (or of one inbound
record entry); `none` is an empty/invalid field. -/
structure DayVals where
  sun : Option ℚ
  mon : Option ℚ
  tue : Option ℚ
  wed : Option ℚ
  thu : Option ℚ
  fri : Option ℚ
  sat : Option ℚ
deriving DecidableEq, Repr

/-- All seven fields empty. -/
def emptyDays : DayVals := ⟨none, none, none, none, none, none, none⟩

/-- Field projection by day. -/
def getDay (v : DayVals) : Day → Option ℚ
  | .sun => v.sun
  | .mon => v.mon
  | .tue => v.tue
  | .wed => v.wed
  | .thu => v.thu
  | .fri => v.fri
  | .sat => v.sat

/-- Field update by day (the browser writing a new input value). -/
def setDay (v : DayVals) : Day → Option ℚ → DayVals
  | .sun, x => { v with sun := x }
  | .mon, x => { v with mon := x }
  | .tue, x => { v with tue := x }
  | .wed, x => { v with wed := x }
  | .thu, x => { v with thu := x }
  | .fri, x => { v with fri := x }
  | .sat, x => { v with sat := x }

/-- `parseFloat(input.value) || 0`: the numeric contribution of a field. -/
def dayVal (v : DayVals) (d : Day) : ℚ := (getDay v d).getD 0

/-- One `entries` element of an inbound record:
`{hour_type, sun..sat}` (§6 of the spec, consumed by `loadTimesheet`). -/
structure EntryRec where
  hour_type : String
  days : DayVals
deriving DecidableEq, Repr

/-- One reimbursement line item `{id, description, amount, category}`. -/
structure ReimItem where
  id : Option String
  description : String
  amount : Option ℚ
  category : String
deriving DecidableEq, Repr

/-- An inbound timesheet record as consumed by `loadTimesheet`
(`{ id, week_start, status, pay_period_confirmed, entries,
reimbursement_items }`); absent JSON fields are `none`. -/
structure Timesheet where
  id : Option String
  week_start : Option String
  status : String
  pay_period_confirmed : Option Bool
  entries : Option (List EntryRec)
  reimbursement_items : Option (List ReimItem)
deriving DecidableEq, Repr

/-- The `TimesheetState` store (`state.js` lines 8-21).  `listeners` models
`_listeners`: pairs of event name and an opaque handler identifier, in
registration order (the JavaScript keeps one array per event name; a single
ordered list filtered by name is the same data). -/
structure TSState where
  currentTimesheet : Option Timesheet
  currentWeekStart : Option String
  addedHourTypes : List String
  reimbursementItems : List ReimItem
  hasUnsavedChanges : Bool
  listeners : List (String × Nat)
deriving DecidableEq, Repr

/-- The module-literal initial values of the store's data fields. -/
def initialState : TSState :=
  { currentTimesheet := none
    currentWeekStart := none
    addedHourTypes := []
    reimbursementItems := []
    hasUnsavedChanges := false
    listeners := [] }

/-- `Set.prototype.add`: append if not already a member (insertion order is
kept, a duplicate add leaves the set untouched). -/
def setAdd (l : List String) (x : String) : List String :=
  if l.contains x then l else l ++ [x]

/-- `on(event, callback)` (`state.js` lines 225-235): push the handler onto
the event's list.  (Named `onEvent` because `on` is an infix token in
Mathlib.)  The returned unsubscribe closure is `unsubscribe` below. -/
def onEvent (s : TSState) (ev : String) (h : Nat) : TSState :=
  { s with listeners := s.listeners ++ [(ev, h)] }

/-- The unsubscribe closure returned by `on`: filter the handler out of the
event's list. -/
def unsubscribe (s : TSState) (ev : String) (h : Nat) : TSState :=
  { s with listeners := s.listeners.filter (fun p => !(p.1 == ev && p.2 == h)) }

/-- `emit(event, data)` invokes the current handlers for the event in
registration order; this returns the identifiers it would invoke. -/
def handlersFor (s : TSState) (ev : String) : List Nat :=
  (s.listeners.filter (fun p => p.1 == ev)).map (fun p => p.2)

/-- The handler invocations produced by a sequence of emitted events
(`emit` consults the listener table at emission time; the store's mutation
operations never change the table, so evaluating against the post-state's
table is exact). -/
def deliveries (s : TSState) (evs : List String) : List Nat :=
  evs.flatMap (fun e => handlersFor s e)

/-- `init(weekStart)` (`state.js` lines 27-36): reset the data fields to the
module defaults, set the week, emit `init`.  The listener table is not
touched by the source. -/
def init (s : TSState) (weekStart : Option String) : TSState × List String :=
  ({ s with
      currentTimesheet := none
      currentWeekStart := weekStart
      addedHourTypes := []
      reimbursementItems := []
      hasUnsavedChanges := false },
   ["init"])

/-- `isEditable()` (`state.js` lines 77-88), structured exactly as the
source: early `true` for a missing record, early `false` on
`pay_period_confirmed || false`, else a status check. -/
def isEditable (s : TSState) : Bool :=
  match s.currentTimesheet with
  | none => true
  | some ts =>
    if ts.pay_period_confirmed.getD false then false
    else ts.status == "NEW" || ts.status == "NEEDS_APPROVAL"

/-- `markChanged()` (`state.js` lines 101-106): only a `false → true`
transition mutates and emits. -/
def markChanged (s : TSState) : TSState × List String :=
  if s.hasUnsavedChanges then (s, [])
  else ({ s with hasUnsavedChanges := true }, ["changed"])

/-- `clearChanges()` (`state.js` lines 111-114): unconditionally write
`false` and emit `changed` — the source has no transition guard here. -/
def clearChanges (s : TSState) : TSState × List String :=
  ({ s with hasUnsavedChanges := false }, ["changed"])

/-- `addHourType(hourType)` (`state.js` lines 120-124): add to the set, run
`markChanged`, emit `hourTypeAdded`. -/
def addHourType (s : TSState) (ht : String) : TSState × List String :=
  let s1 := { s with addedHourTypes := setAdd s.addedHourTypes ht }
  let m := markChanged s1
  (m.1, m.2 ++ ["hourTypeAdded"])

/-- `removeHourType(hourType)` (`state.js` lines 130-134): `Set.delete`,
`markChanged`, emit `hourTypeRemoved`. -/
def removeHourType (s : TSState) (ht : String) : TSState × List String :=
  let s1 := { s with addedHourTypes := s.addedHourTypes.filter (fun y => !(y == ht)) }
  let m := markChanged s1
  (m.1, m.2 ++ ["hourTypeRemoved"])

/-- `hasHourType(hourType)` (`state.js` lines 141-143). -/
def hasHourType (s : TSState) (ht : String) : Bool :=
  s.addedHourTypes.contains ht

/-- `loadTimesheet(timesheet)` (`state.js` lines 50-71): replace the record,
take the week anchor from the record, clear the dirty flag, rebuild the
hour-type set from the record's entries, copy the reimbursement items, emit
`timesheetLoaded`. -/
def loadTimesheet (s : TSState) (ts : Timesheet) : TSState × List String :=
  ({ s with
      currentTimesheet := some ts
      currentWeekStart := ts.week_start
      hasUnsavedChanges := false
      addedHourTypes := ((ts.entries.getD []).map (fun e => e.hour_type)).foldl setAdd []
      reimbursementItems := ts.reimbursement_items.getD [] },
   ["timesheetLoaded"])

/-! ### `entries.js`: the entry grid and aggregation engine -/

/-- `ALL_HOUR_TYPES` (`entries.js` line 18). -/
def ALL_HOUR_TYPES : List String := ["Work", "Training", "Field", "Holiday"]

/-- `TRAINEE_HOUR_TYPES` (`entries.js` line 21). -/
def TRAINEE_HOUR_TYPES : List String := ["Training"]

/-- `getAvailableHourTypes()` (`entries.js` lines 27-33).  The source reads
the ambient `UserInfo.role` global; per §9 of the spec the role is passed
explicitly here, `none` standing for an undefined `UserInfo`. -/
def getAvailableHourTypes (role : Option String) : List String :=
  if role == some "trainee" then TRAINEE_HOUR_TYPES else ALL_HOUR_TYPES

/-- One `<tr class="entry-row">` of the grid: its `data-hour-type` and the
current contents of its seven `.hour-input` fields. -/
structure Row where
  hourType : String
  values : DayVals
deriving DecidableEq, Repr

/-- The application state the entries module works against: the store plus
the grid rows held by the `entries-body` table. -/
structure AppState where
  state : TSState
  grid : List Row
deriving DecidableEq, Repr

/-- `populateSelector()` (`entries.js` lines 38-55): the hour types offered
by the dropdown — the role's available types minus the already-added ones. -/
def selectorOptions (role : Option String) (s : TSState) : List String :=
  (getAvailableHourTypes role).filter (fun t => !(hasHourType s t))

/-- `value = existingData?.[dayName] || ''` (`entries.js` line 131): an
absent value and a value of `0` both render as the empty field. -/
def zeroBlank (v : Option ℚ) : Option ℚ :=
  match v with
  | none => none
  | some q => if q == 0 then none else some q

/-- The initial input contents `_buildRowHTML` writes for a new row, from
the optional existing record entry. -/
def initValues (ex : Option EntryRec) : DayVals :=
  match ex with
  | none => emptyDays
  | some e =>
    { sun := zeroBlank e.days.sun
      mon := zeroBlank e.days.mon
      tue := zeroBlank e.days.tue
      wed := zeroBlank e.days.wed
      thu := zeroBlank e.days.thu
      fri := zeroBlank e.days.fri
      sat := zeroBlank e.days.sat }

/-- `addRow(hourType, existingData)` (`entries.js` lines 79-111): a
duplicate hour type is a logged warning and `return` (no state change, no
event); otherwise the store's `addHourType` runs (emitting its events) and
the new row is appended to the table.  The selector refresh and
all-types-added check touch only the DOM. -/
def addRow (app : AppState) (ht : String) (ex : Option EntryRec) :
    AppState × List String :=
  if hasHourType app.state ht then (app, [])
  else
    let m := addHourType app.state ht
    ({ state := m.1, grid := app.grid ++ [{ hourType := ht, values := initValues ex }] },
     m.2)

/-- `removeRow(hourType)` (`entries.js` lines 219-227): only if the row
element exists is it removed and `removeHourType` run. -/
def removeRow (app : AppState) (ht : String) : AppState × List String :=
  if app.grid.any (fun r => r.hourType == ht) then
    let m := removeHourType app.state ht
    ({ state := m.1, grid := app.grid.eraseP (fun r => r.hourType == ht) }, m.2)
  else (app, [])

/-- The `input` event handler installed by `_setupRowHandlers`
(`entries.js` lines 174-179): the browser has written the new field value;
the handler recomputes the displayed totals (DOM only), runs `markChanged`,
and logs a holiday note.  No editability check appears on this path. -/
def dayEdit (app : AppState) (ht : String) (d : Day) (v : Option ℚ) :
    AppState × List String :=
  if app.grid.any (fun r => r.hourType == ht) then
    let g := app.grid.map
      (fun r => if r.hourType == ht then { r with values := setDay r.values d v } else r)
    let m := markChanged app.state
    ({ state := m.1, grid := g }, m.2)
  else (app, [])

/-! ### Commit-time value normalization

The `change` handler of `_setupRowHandlers` (`entries.js` lines 181-187):
`parseFloat(input.value) || 0`, clamp with `Math.max(0, Math.min(24, v))`,
quantize with `Math.round(v * 2) / 2`, then write back `value || ''` —
a zero result renders as the empty field. -/

/-- `Math.max(0, Math.min(24, value))`. -/
def clampJS (x : ℚ) : ℚ := max 0 (min 24 x)

/-- The committed numeric value of a field content (`none` = empty or
non-numeric, coerced to 0 by `|| 0`).  `Math.round` rounds half toward
`+∞`, as Mathlib's `round` does. -/
def commitValue (v : Option ℚ) : ℚ :=
  ((round (clampJS (v.getD 0) * 2) : ℤ) : ℚ) / 2

/-- The field content written back by the handler: `value || ''`. -/
def commitDisplay (v : Option ℚ) : Option ℚ :=
  if commitValue v == 0 then none else some (commitValue v)

/-! ### Totals -/

/-- `updateRowTotal` (`entries.js` lines 249-270): the sum of
`parseFloat(input.value) || 0` over the row's seven inputs. -/
def rowTotal (r : Row) : ℚ :=
  (daysList.map (fun d => dayVal r.values d)).sum

/-- `updateColumnTotals` (`entries.js` lines 275-293): for one day, the sum
of that day's inputs over all rows. -/
def colTotal (g : List Row) (d : Day) : ℚ :=
  (g.map (fun r => dayVal r.values d)).sum

/-- The sum of all row totals. -/
def sumRowTotals (g : List Row) : ℚ := (g.map rowTotal).sum

/-- The sum of the seven column totals. -/
def sumColTotals (g : List Row) : ℚ := (daysList.map (colTotal g)).sum

/-- `total.toFixed(1)` followed by `parseFloat` (the grand total reads the
rendered row-total cells back): rounding to one decimal digit.  Exact on
every multiple of 0.5 (the valid domain), where IEEE doubles and the
decimal rendering also are exact. -/
def fix1 (q : ℚ) : ℚ := ((round (q * 10) : ℤ) : ℚ) / 10

/-- `updateGrandTotal` (`entries.js` lines 298-312): the sum over the rows
of the parsed text of each `.row-total` cell, that cell holding
`rowTotal(r).toFixed(1)`. -/
def grandTotal (g : List Row) : ℚ :=
  (g.map (fun r => fix1 (rowTotal r))).sum

/-! ### Collected entries -/

/-- One outbound collected entry `{hour_type, sun..sat}`: here every day
carries the coerced number `parseFloat(...) || 0`. -/
structure Entry where
  hour_type : String
  sun : ℚ
  mon : ℚ
  tue : ℚ
  wed : ℚ
  thu : ℚ
  fri : ℚ
  sat : ℚ
deriving DecidableEq, Repr

/-- Day projection of a collected entry. -/
def entryDay (e : Entry) : Day → ℚ
  | .sun => e.sun
  | .mon => e.mon
  | .tue => e.tue
  | .wed => e.wed
  | .thu => e.thu
  | .fri => e.fri
  | .sat => e.sat

/-- The entry object `collectEntries` builds from a row
(`entry[day] = parseFloat(input.value) || 0`). -/
def toEntry (r : Row) : Entry :=
  { hour_type := r.hourType
    sun := dayVal r.values .sun
    mon := dayVal r.values .mon
    tue := dayVal r.values .tue
    wed := dayVal r.values .wed
    thu := dayVal r.values .thu
    fri := dayVal r.values .fri
    sat := dayVal r.values .sat }

/-- `['sun',...,'sat'].some(day => entry[day] > 0)` (`entries.js`
lines 334-335). -/
def hasHours (e : Entry) : Bool :=
  daysList.any (fun d => decide (0 < entryDay e d))

/-- `collectEntries()` (`entries.js` lines 318-343): walk the rows in table
order, build each row's entry, and push it only if some day is positive. -/
def collectEntries : List Row → List Entry
  | [] => []
  | r :: g =>
    if hasHours (toEntry r) then toEntry r :: collectEntries g
    else collectEntries g

/-! ## Validity of entered values

The spec's valid domain (§3): every committed value lies in `[0, 24]` and is
quantized to 0.5 increments, i.e. it is `k / 2` for some natural `k ≤ 48`;
an empty field contributes `0`, which is valid. -/

/-- A rational that is a whole number of half-hours. -/
def isHalfStep (q : ℚ) : Prop := ∃ k : ℕ, q = (k : ℚ) / 2

/-- A field content whose numeric contribution is clamped and quantized. -/
def validVal (v : Option ℚ) : Prop :=
  ∃ k : ℕ, k ≤ 48 ∧ v.getD 0 = (k : ℚ) / 2

/-- Every field of the row is valid. -/
def validRow (r : Row) : Prop := ∀ d ∈ daysList, validVal (getDay r.values d)

/-- Every row of the grid is valid. -/
def validGrid (g : List Row) : Prop := ∀ r ∈ g, validRow r

/-! ## Helper lemmas -/

lemma list_sum_map_add {α : Type} (l : List α) (f h : α → ℚ) :
    (l.map (fun x => f x + h x)).sum = (l.map f).sum + (l.map h).sum := by
  induction l with
  | nil => simp
  | cons a t ih => simp only [List.map_cons, List.sum_cons, ih]; ring

lemma colTotal_cons (r : Row) (t : List Row) (d : Day) :
    colTotal (r :: t) d = dayVal r.values d + colTotal t d := by
  simp [colTotal]

/-- The row/column exchange: summing the row totals and summing the column
totals traverse the same grid of numbers. -/
lemma sumRowTotals_eq_sumColTotals (g : List Row) :
    sumRowTotals g = sumColTotals g := by
  induction g with
  | nil => simp [sumRowTotals, sumColTotals, colTotal, daysList]
  | cons r t ih =>
      calc sumRowTotals (r :: t)
          = rowTotal r + sumRowTotals t := by simp [sumRowTotals]
        _ = (daysList.map (fun d => dayVal r.values d)).sum
              + (daysList.map (colTotal t)).sum := by rw [ih]; rfl
        _ = (daysList.map (fun d => dayVal r.values d + colTotal t d)).sum :=
              (list_sum_map_add daysList _ _).symm
        _ = sumColTotals (r :: t) := by
              rw [sumColTotals,
                List.map_congr_left (fun d _ => (colTotal_cons r t d).symm)]

lemma isHalfStep_add {a b : ℚ} (ha : isHalfStep a) (hb : isHalfStep b) :
    isHalfStep (a + b) := by
  obtain ⟨m, rfl⟩ := ha
  obtain ⟨n, rfl⟩ := hb
  exact ⟨m + n, by push_cast; ring⟩

lemma isHalfStep_sum {l : List ℚ} (h : ∀ x ∈ l, isHalfStep x) :
    isHalfStep l.sum := by
  induction l with
  | nil => exact ⟨0, by simp⟩
  | cons a t ih =>
      simp only [List.sum_cons]
      exact isHalfStep_add (h a (by simp)) (ih fun x hx => h x (by simp [hx]))

lemma rowTotal_halfStep {r : Row} (h : validRow r) : isHalfStep (rowTotal r) := by
  rw [rowTotal]
  apply isHalfStep_sum
  intro x hx
  simp only [List.mem_map] at hx
  obtain ⟨d, hd, rfl⟩ := hx
  obtain ⟨k, _, hk⟩ := h d hd
  exact ⟨k, hk⟩

/-- One-decimal rounding is exact on half-steps: this is where the
`toFixed(1)`/`parseFloat` round trip of `updateGrandTotal` loses nothing on
the valid domain. -/
lemma fix1_of_halfStep {q : ℚ} (h : isHalfStep q) : fix1 q = q := by
  obtain ⟨k, rfl⟩ := h
  have h10 : ((k : ℚ) / 2) * 10 = ((5 * k : ℕ) : ℚ) := by push_cast; ring
  rw [fix1, h10, round_natCast]
  push_cast
  ring

/-- `entryDay` after `toEntry` reads the coerced input value back. -/
lemma entryDay_toEntry (r : Row) (d : Day) :
    entryDay (toEntry r) d = dayVal r.values d := by
  cases d <;> rfl

/-- The push condition of `collectEntries`, as a statement about the row. -/
lemma hasHours_toEntry_iff (r : Row) :
    hasHours (toEntry r) = true ↔ ∃ d ∈ daysList, 0 < dayVal r.values d := by
  simp [hasHours, List.any_eq_true, entryDay_toEntry]

/-! ## Claim theorems -/

/-- C2: for every grid of valid (clamped, quantized) inputs, the sum of all
row totals equals the sum of the seven column totals, and the grand total
computed by `updateGrandTotal` (which re-parses each rendered row total)
equals the sum of the row totals. -/
theorem c2_sum_equivalence (g : List Row) (hg : validGrid g) :
    sumRowTotals g = sumColTotals g ∧ grandTotal g = sumRowTotals g := by
  refine ⟨sumRowTotals_eq_sumColTotals g, ?_⟩
  rw [grandTotal, sumRowTotals]
  rw [List.map_congr_left
    (fun r hr => fix1_of_halfStep (rowTotal_halfStep (hg r hr)))]

/-- The §8 scenario row: `Work` with `mon = 8`, `tue = 8`. -/
def c2Row : Row :=
  { hourType := "Work", values := { emptyDays with mon := some 8, tue := some 8 } }

/-- Witness for C2 at the spec's §8 scenario grid. -/
theorem c2_sum_equivalence_witness :
    sumRowTotals [c2Row] = sumColTotals [c2Row] ∧
    grandTotal [c2Row] = sumRowTotals [c2Row] :=
  c2_sum_equivalence [c2Row] (by
    intro r hr
    simp only [List.mem_singleton] at hr
    subst hr
    intro d hd
    fin_cases hd
    · exact ⟨0, by norm_num, by norm_num [c2Row, getDay, emptyDays]⟩
    · exact ⟨16, by norm_num, by norm_num [c2Row, getDay, emptyDays]⟩
    · exact ⟨16, by norm_num, by norm_num [c2Row, getDay, emptyDays]⟩
    · exact ⟨0, by norm_num, by norm_num [c2Row, getDay, emptyDays]⟩
    · exact ⟨0, by norm_num, by norm_num [c2Row, getDay, emptyDays]⟩
    · exact ⟨0, by norm_num, by norm_num [c2Row, getDay, emptyDays]⟩
    · exact ⟨0, by norm_num, by norm_num [c2Row, getDay, emptyDays]⟩)

/-- C4: commit-time normalization first clamps to `[0, 24]` and then rounds
to the nearest 0.5.  Committing `7.3` yields `7.5`; committing `-2` yields
the value `0` (which, like every zero result, the handler renders as the
empty field per `value || ''`); committing `30` yields `24`; a cleared or
non-numeric field (`none`) normalizes to empty and its contribution to
totals (`(commitDisplay v).getD 0`) is exactly the committed value, so it
counts as 0.  Every committed value is a half-step in `[0, 24]`. -/
theorem c4_commit_normalization :
    commitDisplay (some (73/10)) = some (15/2) ∧
    (commitValue (some (-2)) = 0 ∧ commitDisplay (some (-2)) = none) ∧
    commitDisplay (some 30) = some 24 ∧
    (commitValue none = 0 ∧ commitDisplay none = none) ∧
    (∀ v : Option ℚ, (commitDisplay v).getD 0 = commitValue v) ∧
    (∀ v : Option ℚ, 0 ≤ commitValue v ∧ commitValue v ≤ 24 ∧
      isHalfStep (commitValue v)) := by
  refine ⟨?_, ⟨?_, ?_⟩, ?_, ⟨?_, ?_⟩, ?_, ?_⟩
  · simp [commitDisplay, commitValue, clampJS, round_eq]
    norm_num
  · simp [commitValue, clampJS, round_eq]
    norm_num
  · simp [commitDisplay, commitValue, clampJS, round_eq]
    norm_num
  · simp [commitDisplay, commitValue, clampJS, round_eq]
    norm_num
  · simp [commitValue, clampJS, round_eq]
    norm_num
  · simp [commitDisplay, commitValue, clampJS, round_eq]
    norm_num
  · intro v
    by_cases h : commitValue v = 0
    · simp [commitDisplay, beq_iff_eq, h]
    · simp [commitDisplay, beq_iff_eq, h]
  · intro v
    simp only [commitValue]
    set x := clampJS (v.getD 0) with hx
    have h0 : 0 ≤ x := le_max_left 0 _
    have h24 : x ≤ 24 := max_le (by norm_num) (min_le_left _ _)
    have hr0 : (0 : ℤ) ≤ round (x * 2) := by
      rw [round_eq]
      exact Int.floor_nonneg.2 (by linarith)
    have hr48 : round (x * 2) ≤ 48 := by
      rw [round_eq]
      have hlt : ⌊x * 2 + 1 / 2⌋ < 49 := Int.floor_lt.2 (by push_cast; linarith)
      omega
    have hcast0 : (0 : ℚ) ≤ ((round (x * 2) : ℤ) : ℚ) := by exact_mod_cast hr0
    have hcast48 : ((round (x * 2) : ℤ) : ℚ) ≤ 48 := by exact_mod_cast hr48
    refine ⟨by linarith, by linarith, ⟨(round (x * 2)).toNat, ?_⟩⟩
    have hnat : (((round (x * 2)).toNat : ℕ) : ℚ) = ((round (x * 2) : ℤ) : ℚ) := by
      exact_mod_cast congrArg (fun z : ℤ => (z : ℚ)) (Int.toNat_of_nonneg hr0)
    rw [hnat]

/-- C5: `collectEntries` emits a row's entry exactly when at least one of
its seven coerced day values is strictly positive; in particular an
all-zero or all-empty row is dropped even though its category is still in
`addedHourTypes` — the collection never consults the category set. -/
theorem c5_collect_iff_positive_day (g : List Row) (e : Entry) :
    e ∈ collectEntries g ↔
      ∃ r, r ∈ g ∧ toEntry r = e ∧ ∃ d ∈ daysList, 0 < dayVal r.values d := by
  induction g with
  | nil => simp [collectEntries]
  | cons r t ih =>
      rw [collectEntries]
      by_cases hh : hasHours (toEntry r) = true
      · rw [if_pos hh]
        constructor
        · intro hm
          rcases List.mem_cons.1 hm with he | ht
          · exact ⟨r, List.mem_cons_self r t, he.symm,
              (hasHours_toEntry_iff r).1 hh⟩
          · obtain ⟨r', hr', he', hd'⟩ := ih.1 ht
            exact ⟨r', List.mem_cons_of_mem r hr', he', hd'⟩
        · rintro ⟨r', hr', he', hd'⟩
          rcases List.mem_cons.1 hr' with h | h
          · subst h
            exact List.mem_cons.2 (Or.inl he'.symm)
          · exact List.mem_cons_of_mem _ (ih.2 ⟨r', h, he', hd'⟩)
      · rw [if_neg hh, ih]
        constructor
        · rintro ⟨r', hr', he', hd'⟩
          exact ⟨r', List.mem_cons_of_mem r hr', he', hd'⟩
        · rintro ⟨r', hr', he', hd'⟩
          rcases List.mem_cons.1 hr' with h | h
          · subst h
            exact absurd ((hasHours_toEntry_iff r').2 hd') hh
          · exact ⟨r', h, he', hd'⟩

/-- C6: for a loaded record, `isEditable()` computes exactly the spec's
derivation `!payPeriodLocked && status ∈ {NEW, NEEDS_APPROVAL}`, with
`payPeriodLocked` read from `pay_period_confirmed` and defaulted to `false`
when absent.  The right-hand side below is the spec's formula, the
left-hand side the early-return structure of the source; the embedding of
`isEditable` is a plain function of the state, so the call mutates no field
and emits no event. -/
theorem c6_isEditable_formula (s : TSState) (ts : Timesheet)
    (h : s.currentTimesheet = some ts) :
    isEditable s = (!(ts.pay_period_confirmed.getD false)
      && (ts.status == "NEW" || ts.status == "NEEDS_APPROVAL")) := by
  unfold isEditable
  rw [h]
  by_cases hb : ts.pay_period_confirmed.getD false = true
  · simp [hb]
  · simp only [Bool.not_eq_true] at hb
    simp [hb]

/-- A freshly loaded `NEW` record for the C6 witness. -/
def tsNew : Timesheet :=
  { id := some "t0", week_start := some "2026-01-04", status := "NEW",
    pay_period_confirmed := some false, entries := some [],
    reimbursement_items := none }

/-- The store after loading `tsNew`. -/
def sNew : TSState := (loadTimesheet initialState tsNew).1

/-- Witness for C6 on a loaded `NEW` record. -/
theorem c6_isEditable_formula_witness :
    isEditable sNew = (!(tsNew.pay_period_confirmed.getD false)
      && (tsNew.status == "NEW" || tsNew.status == "NEEDS_APPROVAL")) :=
  c6_isEditable_formula sNew tsNew rfl

/-- C10: whenever no record is loaded (`currentTimesheet` is null), the
early return of `isEditable()` yields `true` regardless of every other
state field — week, category set, dirty flag, listeners. -/
theorem c10_unloaded_always_editable (s : TSState)
    (h : s.currentTimesheet = none) : isEditable s = true := by
  unfold isEditable
  rw [h]

/-- Witness for C10 at the module's initial state. -/
theorem c10_unloaded_always_editable_witness : isEditable initialState = true :=
  c10_unloaded_always_editable initialState rfl

/-- C7 is refuted on its `clearChanges` half: the source's `clearChanges()`
has no transition guard, so calling it while `hasUnsavedChanges` is already
`false` still emits a `changed` event. -/
theorem c7_counterexample :
    initialState.hasUnsavedChanges = false ∧
    (clearChanges initialState).2 = ["changed"] :=
  ⟨rfl, rfl⟩

/-- C7 amended: `markChanged()` emits `changed` only on an actual
`false → true` transition (a call while already dirty changes nothing and
emits nothing), but `clearChanges()` unconditionally writes `false` and
emits `changed` on every call, even when the flag was already clear. -/
theorem c7_amended_transitions :
    (∀ s : TSState, s.hasUnsavedChanges = true → markChanged s = (s, [])) ∧
    (∀ s : TSState, s.hasUnsavedChanges = false →
      markChanged s = ({ s with hasUnsavedChanges := true }, ["changed"])) ∧
    (∀ s : TSState,
      clearChanges s = ({ s with hasUnsavedChanges := false }, ["changed"])) := by
  refine ⟨fun s h => ?_, fun s h => ?_, fun s => rfl⟩
  · simp [markChanged, h]
  · simp [markChanged, h]

/-- A dirty state for the C7 witness. -/
def dirtyState : TSState := { initialState with hasUnsavedChanges := true }

/-- Witness for the amended C7 at concrete dirty and clean states. -/
theorem c7_amended_transitions_witness :
    markChanged dirtyState = (dirtyState, []) ∧
    markChanged initialState
      = ({ initialState with hasUnsavedChanges := true }, ["changed"]) ∧
    clearChanges initialState
      = ({ initialState with hasUnsavedChanges := false }, ["changed"]) :=
  ⟨c7_amended_transitions.1 dirtyState rfl,
   c7_amended_transitions.2.1 initialState rfl,
   c7_amended_transitions.2.2 initialState⟩

/-- A session with one handler (id 0) subscribed to `changed` before the
re-`init`. -/
def s8pre : TSState := onEvent initialState "changed" 0

/-- The store right after calling `init` again on that session. -/
def s8post : TSState := (init s8pre (some "2026-01-11")).1

/-- C8 is refuted: `init()` never clears `_listeners`, so the handler
registered before the `init` call is still invoked by events emitted
afterwards — here the `changed` event of the first post-init `markChanged`
is delivered to handler 0. -/
theorem c8_counterexample :
    s8pre.listeners = [("changed", 0)] ∧
    (markChanged s8post).2 = ["changed"] ∧
    deliveries s8post (markChanged s8post).2 = [0] :=
  ⟨rfl, rfl, rfl⟩

/-- C8 amended: `init(weekStart)` resets every data field to its empty
default, sets the week, and emits `init`, but leaves the listener table
untouched: every handler registered before the call remains subscribed and
is invoked by matching events emitted after it. -/
theorem c8_amended_init_keeps_listeners (s : TSState) (w : Option String) :
    (init s w).1.listeners = s.listeners ∧
    (init s w).1.currentTimesheet = none ∧
    (init s w).1.currentWeekStart = w ∧
    (init s w).1.addedHourTypes = [] ∧
    (init s w).1.reimbursementItems = [] ∧
    (init s w).1.hasUnsavedChanges = false ∧
    (init s w).2 = ["init"] ∧
    ∀ ev hId, (ev, hId) ∈ s.listeners → hId ∈ handlersFor (init s w).1 ev := by
  refine ⟨rfl, rfl, rfl, rfl, rfl, rfl, rfl, ?_⟩
  intro ev hId hm
  simp only [init, handlersFor, List.mem_map, List.mem_filter]
  exact ⟨(ev, hId), ⟨hm, by simp⟩, rfl⟩

/-- Witness for the amended C8 on the one-subscriber session. -/
theorem c8_amended_init_keeps_listeners_witness :
    (init s8pre (some "2026-01-11")).1.listeners = s8pre.listeners ∧
    0 ∈ handlersFor (init s8pre (some "2026-01-11")).1 "changed" :=
  ⟨(c8_amended_init_keeps_listeners s8pre (some "2026-01-11")).1,
   (c8_amended_init_keeps_listeners s8pre
       (some "2026-01-11")).2.2.2.2.2.2.2 "changed" 0 (by decide)⟩

/-- A loaded `SUBMITTED` record: `isEditable()` is `false`. -/
def tsSubmitted : Timesheet :=
  { id := some "t1", week_start := some "2026-01-04", status := "SUBMITTED",
    pay_period_confirmed := none, entries := some [],
    reimbursement_items := none }

/-- The store after loading the submitted record. -/
def sLocked : TSState := (loadTimesheet initialState tsSubmitted).1

/-- The locked session with an empty grid. -/
def appLocked : AppState := { state := sLocked, grid := [] }

/-- A populated `Work` row (the §8 scenario: `mon = 8`, `tue = 8`). -/
def lockedRow : Row :=
  { hourType := "Work",
    values := { emptyDays with mon := some 8, tue := some 8 } }

/-- The locked session with the `Work` row present. -/
def appLockedRow : AppState :=
  { state := { sLocked with addedHourTypes := ["Work"] }, grid := [lockedRow] }

/-- C1 is refuted by the code, and the repository's own documentation sides
with the claim (SECURITY.md REQ-023 "Read-Only Submitted Timesheets",
tracked as BUG-001, a P0 defect: "Hour inputs are editable").  With a
SUBMITTED record loaded — `isEditable()` is `false` — `addRow` still adds
the category, sets the dirty flag and emits `changed` and `hourTypeAdded`;
a day edit still stores the new value and emits `changed`; `removeRow`
still deletes the category and emits.  None of the mutation entry points
consults `isEditable()`. -/
theorem c1_locked_mutations_not_refused :
    isEditable sLocked = false ∧
    (addRow appLocked "Work" none).1.state.addedHourTypes = ["Work"] ∧
    (addRow appLocked "Work" none).1.state.hasUnsavedChanges = true ∧
    (addRow appLocked "Work" none).2 = ["changed", "hourTypeAdded"] ∧
    (dayEdit appLockedRow "Work" Day.wed (some 4)).2 = ["changed"] ∧
    ((dayEdit appLockedRow "Work" Day.wed (some 4)).1.grid.map
        (fun r => dayVal r.values Day.wed)) = [4] ∧
    (removeRow appLockedRow "Work").1.state.addedHourTypes = [] ∧
    (removeRow appLockedRow "Work").2 = ["changed", "hourTypeRemoved"] :=
  ⟨rfl, rfl, rfl, rfl, rfl, rfl, rfl, rfl⟩

/-- A fresh editable session (no record, clean flag, empty grid). -/
def app0 : AppState := { state := initialState, grid := [] }

/-- C3's event count is refuted: from a clean editable state, the first
`addRow` call emits TWO events — `changed` (the dirty transition inside
`addHourType`'s `markChanged`) followed by `hourTypeAdded` — and the
second, duplicate call emits none; so two notification events, not one,
fire across the two calls. -/
theorem c3_counterexample :
    ((addRow app0 "Work" none).2
      ++ (addRow (addRow app0 "Work" none).1 "Work" none).2)
      = ["changed", "hourTypeAdded"] ∧
    ((addRow app0 "Work" none).2
      ++ (addRow (addRow app0 "Work" none).1 "Work" none).2).length = 2 :=
  ⟨rfl, rfl⟩

/-- Computation of `addRow` on a not-yet-added hour type: the category is
appended, the dirty flag set, the row added, and the events are the
optional dirty transition followed by `hourTypeAdded`. -/
lemma addRow_fresh (app : AppState) (t : String) (ex : Option EntryRec)
    (h : hasHourType app.state t = false) :
    addRow app t ex =
      ({ state := { app.state with
            addedHourTypes := app.state.addedHourTypes ++ [t]
            hasUnsavedChanges := true }
         grid := app.grid ++ [{ hourType := t, values := initValues ex }] },
       (if app.state.hasUnsavedChanges then [] else ["changed"])
         ++ ["hourTypeAdded"]) := by
  have hc : app.state.addedHourTypes.contains t = false := h
  have hmem : t ∉ app.state.addedHourTypes := by simpa using hc
  cases hd : app.state.hasUnsavedChanges
  · simp [addRow, h, addHourType, setAdd, hc, hmem, markChanged, hd]
  · simp [addRow, h, addHourType, setAdd, hc, hmem, markChanged, hd]

/-- `addRow` on an already-present hour type: warn-and-return — identical
state, no events. -/
lemma addRow_dup (app : AppState) (t : String) (ex : Option EntryRec)
    (h : hasHourType app.state t = true) : addRow app t ex = (app, []) := by
  simp [addRow, h]

/-- C3 amended: after a first `addRow` of a not-yet-present category, the
second call with the same category is a complete no-op (same state, no
events, the source logs a warning); across the two calls exactly one
`hourTypeAdded` notification fires — the only other possible event is a
single `changed` emitted by the first call when it flips the dirty flag. -/
theorem c3_amended_duplicate_guard (app : AppState) (t : String)
    (h : hasHourType app.state t = false) :
    addRow (addRow app t none).1 t none = ((addRow app t none).1, []) ∧
    (addRow app t none).1.state.addedHourTypes
      = app.state.addedHourTypes ++ [t] ∧
    (addRow app t none).2.count "hourTypeAdded" = 1 ∧
    ((addRow app t none).2 = ["hourTypeAdded"] ∨
      (addRow app t none).2 = ["changed", "hourTypeAdded"]) := by
  have h1 := addRow_fresh app t none h
  have hmem : hasHourType (addRow app t none).1.state t = true := by
    rw [h1]
    simp [hasHourType]
  refine ⟨addRow_dup (addRow app t none).1 t none hmem, by rw [h1], ?_, ?_⟩
  · rw [h1]
    cases app.state.hasUnsavedChanges <;> rfl
  · rw [h1]
    cases app.state.hasUnsavedChanges
    · exact Or.inr rfl
    · exact Or.inl rfl

/-- Witness for the amended C3 from the fresh session. -/
theorem c3_amended_duplicate_guard_witness :
    addRow (addRow app0 "Work" none).1 "Work" none
      = ((addRow app0 "Work" none).1, []) ∧
    (addRow app0 "Work" none).1.state.addedHourTypes
      = app0.state.addedHourTypes ++ ["Work"] ∧
    (addRow app0 "Work" none).2.count "hourTypeAdded" = 1 ∧
    ((addRow app0 "Work" none).2 = ["hourTypeAdded"] ∨
      (addRow app0 "Work" none).2 = ["changed", "hourTypeAdded"]) :=
  c3_amended_duplicate_guard app0 "Work" rfl

/-- C9's rejection clause is refuted: under the trainee role the available
set is exactly `["Training"]`, yet `addRow` never consults the role —
adding `Work`, a category outside the trainee's set, from a fresh session
succeeds, mutates the category set and emits both events. -/
theorem c9_counterexample :
    getAvailableHourTypes (some "trainee") = ["Training"] ∧
    "Work" ∉ getAvailableHourTypes (some "trainee") ∧
    (addRow app0 "Work" none).1.state.addedHourTypes = ["Work"] ∧
    (addRow app0 "Work" none).2 = ["changed", "hourTypeAdded"] :=
  ⟨rfl, by decide, rfl, rfl⟩

/-- C9 amended: `getAvailableHourTypes` returns exactly `["Training"]` for
the trainee role and the full four assignable categories for every other
role; the dropdown offers only available, not-yet-added categories (so the
UI flow cannot attempt an out-of-role add), and `addRow` itself rejects
only duplicates — it performs no role check. -/
theorem c9_amended_role_gating :
    getAvailableHourTypes (some "trainee") = ["Training"] ∧
    (∀ role : Option String, role ≠ some "trainee" →
      getAvailableHourTypes role = ALL_HOUR_TYPES) ∧
    (∀ (role : Option String) (s : TSState) (t : String),
      t ∈ selectorOptions role s →
        t ∈ getAvailableHourTypes role ∧ hasHourType s t = false) ∧
    (∀ (app : AppState) (t : String) (ex : Option EntryRec),
      hasHourType app.state t = true → addRow app t ex = (app, [])) := by
  refine ⟨rfl, ?_, ?_, ?_⟩
  · intro role hr
    have hb : (role == some "trainee") = false := by
      cases hb : role == some "trainee"
      · rfl
      · exact absurd (eq_of_beq hb) hr
    simp [getAvailableHourTypes, hb]
  · intro role s t ht
    rw [selectorOptions] at ht
    have hft := List.mem_filter.1 ht
    refine ⟨hft.1, ?_⟩
    have hb := hft.2
    cases hh : hasHourType s t
    · rfl
    · rw [hh] at hb
      simp at hb
  · intro app t ex h
    simp [addRow, h]

/-- The session after one successful `Work` add, for the C9 witness. -/
def appW : AppState := (addRow app0 "Work" none).1

/-- Witness for the amended C9 at concrete roles and sessions. -/
theorem c9_amended_role_gating_witness :
    getAvailableHourTypes (some "admin") = ALL_HOUR_TYPES ∧
    ("Training" ∈ getAvailableHourTypes (some "trainee") ∧
      hasHourType initialState "Training" = false) ∧
    addRow appW "Work" none = (appW, []) :=
  ⟨c9_amended_role_gating.2.1 (some "admin") (by decide),
   c9_amended_role_gating.2.2.1 (some "trainee") initialState "Training"
     (by decide),
   c9_amended_role_gating.2.2.2 appW "Work" none rfl⟩

end TimesheetCore
